import Mathlib

/-!
A shallow embedding of the trust-establishment pipeline of `tpm-trust`:
the CRL wrapper (`internal/crl`), the resource downloader
(`internal/validate/downloader.go`), the EK trust checker
(`internal/validate`, `ekchecker`), and the TPM key locator
(`internal/tpm/ek.go`).

Modelling conventions:
- machine time instants (`time.Time`) are modelled as `Int`; `a.After(b)`
  is `b < a` and `a.Before(b)` is `a < b`;
- `*big.Int` serial numbers are `Int`; `Cmp x y == 0` is `x = y`;
- cryptographic signature checking (`CheckSignatureFrom`) is abstracted by
  an identifier set carried by the revocation list: the list records the
  ids of the certificates whose signature check succeeds;
- the HTTP client together with body reading and parsing is abstracted by
  oracle functions on the downloader (`fetchCRL`, `fetchSigner`); a network
  fetch is counted exactly when the enabled branch of a download function
  runs (one `client.Do` call);
- Go code that invokes a method on a nil interface value (a runtime
  panic) is modelled by an explicit `nilVerifyPanic` / `nilCertPanic`
  outcome, so that totality claims can be stated.
-/

namespace TpmTrust

/-! ## Data model -/

/-- A URL as it appears in a certificate extension. `scheme` and `rest`
abstract the string; `parseOk` records whether `url.Parse` succeeds on it. -/
structure Url where
  scheme : String
  rest : String
  parseOk : Bool
deriving DecidableEq

/-- The fields of `x509.Certificate` read by the checker. `certId` is the
abstract identity used by the signature-check abstraction. -/
structure Certificate where
  certId : Nat
  serialNumber : Int
  isCA : Bool
  issuingCertificateURL : List Url
  crlDistributionPoints : List Url
  unknownExtKeyUsage : List (List Nat)
deriving DecidableEq

/-- OID 2.23.133.8.1 (TCG EK Credential Profile, `EKCertificate` in the
source). -/
def EKCertificateOID : List Nat := [2, 23, 133, 8, 1]

/-- The fields of `x509.RevocationList` read by the CRL wrapper.
`signedBy` abstracts signature verification: the ids of certificates for
which `CheckSignatureFrom` succeeds. -/
structure RevocationList where
  thisUpdate : Int
  nextUpdate : Int
  revokedSerials : List Int
  signedBy : List Nat
deriving DecidableEq

/-! ## `internal/crl` (package crl) -/

inductive CrlError where
  | crlIsExpired
  | crlNotYetValid
  | unknownAuthority
deriving DecidableEq

/-- `(c *crl) IsValid()`: `now` is passed explicitly in place of
`time.Now()`. `now.After(c.NextUpdate)` is `c.nextUpdate < now` and
`now.Before(c.ThisUpdate)` is `now < c.thisUpdate`. -/
def IsValid (c : RevocationList) (now : Int) : Except CrlError Unit :=
  if c.nextUpdate < now then .error .crlIsExpired
  else if now < c.thisUpdate then .error .crlNotYetValid
  else .ok ()

/-- Abstraction of `c.CheckSignatureFrom(cert) == nil`. -/
def CheckSignatureFrom (c : RevocationList) (cert : Certificate) : Bool :=
  c.signedBy.contains cert.certId

/-- `(c *crl) Verify(certs ...)`: succeeds on the first candidate signer
whose signature check succeeds, otherwise `ErrUnknownAuthorityError`. -/
def Verify (c : RevocationList) (certs : List Certificate) : Except CrlError Unit :=
  if certs.any (fun cert => CheckSignatureFrom c cert) then .ok ()
  else .error .unknownAuthority

/-- `(c *crl) IsRevoked(cert)`: serial-number equality scan over
`RevokedCertificateEntries`. -/
def IsRevoked (c : RevocationList) (cert : Certificate) : Bool :=
  c.revokedSerials.any (fun s => s == cert.serialNumber)

/-! ## `internal/validate/downloader.go` -/

inductive DownloadError where
  | downloaderDisabled
  | fetchFailed (reason : Nat)
deriving DecidableEq

/-- The downloader. `fetchCRL` abstracts the enabled network path of
`downloadCRL` (build request, `client.Do`, require status 200, read body,
`ParseRevocationList`, `crlutil.NewCRL`); `fetchSigner` abstracts the
enabled network path of `downloadCRLSigner` (same, with
`ParseCertificate`). The per-fetch `timeout` only shapes those network
results and is folded into the oracles. -/
structure Downloader where
  enabled : Bool
  maxDownloads : Nat
  fetchCRL : Url → Except DownloadError RevocationList
  fetchSigner : Url → Except DownloadError Certificate

/-- `newDefaultDownloader`: enabled, with `maxDownloads = 10`; the HTTP
client is the oracle pair. -/
def newDefaultDownloader (fetchCRL : Url → Except DownloadError RevocationList)
    (fetchSigner : Url → Except DownloadError Certificate) : Downloader :=
  ⟨true, 10, fetchCRL, fetchSigner⟩

/-- `(d *downloader) downloadCRL`: when disabled returns `(nil, nil)`
without touching the network; otherwise performs one fetch. The `Nat` is
the number of network fetches performed by the call. -/
def downloadCRL (d : Downloader) (u : Url) :
    Except DownloadError (Option RevocationList) × Nat :=
  if d.enabled = false then (.ok none, 0)
  else
    match d.fetchCRL u with
    | .ok c => (.ok (some c), 1)
    | .error e => (.error e, 1)

/-- `(d *downloader) downloadCRLSigner`: when disabled fails hard with
`ErrDownloaderDisabled`; otherwise performs one fetch. -/
def downloadCRLSigner (d : Downloader) (u : Url) :
    Except DownloadError Certificate × Nat :=
  if d.enabled = false then (.error .downloaderDisabled, 0)
  else
    match d.fetchSigner u with
    | .ok c => (.ok c, 1)
    | .error e => (.error e, 1)

/-! ## `ekchecker` (validate package) -/

inductive CheckError where
  | invalidCheckConfig
  | ekCannotBeCA
  | missingAIAExtension
  | tooManyIssuers
  | tooManyCRLs
  | missingEKOID
  | prepareIssuerUrlsFailed
  | prepareCrlUrlsFailed
  | issuerDownloadFailed (e : DownloadError)
  | crlDownloadFailed (e : DownloadError)
  | crlVerifyFailed (e : CrlError)
  | certificateRevoked
  | untrustedCertificate
deriving DecidableEq

/-- `CheckConfig`: `EK *x509.Certificate` is an `Option` (nil pointer is
`none`), plus the `SkipRevocationCheck` flag. -/
structure CheckConfig where
  ek : Option Certificate
  skipRevocationCheck : Bool
deriving DecidableEq

/-- The `ekchecker` receiver: its downloader and the trusted bundle,
abstracted by the predicate `tbVerify` modelling
`tb.VerifyCertificate(cert) == nil`. Logging fields are dropped. -/
structure EKChecker where
  downloader : Downloader
  tbVerify : Certificate → Bool

/-- `(c *ekchecker) check(cfg)`: the structural pre-checks, in source
order. Returns the (possibly updated) `SkipRevocationCheck` flag, since
the source mutates `cfg.SkipRevocationCheck` through the pointer. -/
def check (d : Downloader) (ek : Certificate) (skipRevocationCheck : Bool) :
    Except CheckError Bool :=
  if ek.isCA then .error .ekCannotBeCA
  else if ek.issuingCertificateURL.length = 0 then .error .missingAIAExtension
  else if d.maxDownloads < ek.issuingCertificateURL.length then .error .tooManyIssuers
  else if skipRevocationCheck = false ∧ d.maxDownloads < ek.crlDistributionPoints.length then
    .error .tooManyCRLs
  else
    let skip := if ek.crlDistributionPoints.length = 0 then true else skipRevocationCheck
    if ek.unknownExtKeyUsage.any (fun oid => oid == EKCertificateOID) then .ok skip
    else .error .missingEKOID

/-- `(c *ekchecker) prepareUrls`: fails on the first URL that does not
parse; keeps URLs with scheme `http` or `https`; silently drops (with a
warning) any other scheme. -/
def prepareUrls : List Url → Except Unit (List Url)
  | [] => .ok []
  | u :: rest =>
    if u.parseOk = false then .error ()
    else if ["http", "https"].contains u.scheme then
      match prepareUrls rest with
      | .error e => .error e
      | .ok l => .ok (u :: l)
    else prepareUrls rest

/-- The fetch loop of `getIssuerCertificates`: one download per prepared
URL, in order, aborting on the first failure. The `Nat` counts network
fetches performed. -/
def fetchIssuers (d : Downloader) : List Url → Except CheckError (List Certificate) × Nat
  | [] => (.ok [], 0)
  | u :: rest =>
    match downloadCRLSigner d u with
    | (.error e, n) => (.error (.issuerDownloadFailed e), n)
    | (.ok cert, n) =>
      match fetchIssuers d rest with
      | (.error e, m) => (.error e, n + m)
      | (.ok certs, m) => (.ok (cert :: certs), n + m)

/-- `(c *ekchecker) getIssuerCertificates`: prepare the AIA URLs then
fetch each issuer certificate, all-or-nothing. -/
def getIssuerCertificates (d : Downloader) (cert : Certificate) :
    Except CheckError (List Certificate) × Nat :=
  match prepareUrls cert.issuingCertificateURL with
  | .error _ => (.error .prepareIssuerUrlsFailed, 0)
  | .ok urls => fetchIssuers d urls

/-- Result of the revocation loop inside `Check`. `nilVerifyPanic` models
the runtime panic of calling `crl.Verify` on the nil interface value that
`downloadCRL` returns when the downloader is disabled. -/
inductive CrlLoopResult where
  | passed
  | failed (e : CheckError)
  | nilVerifyPanic
deriving DecidableEq

/-- The revocation loop of `Check`: for each prepared CRL URL, download
the list, verify its signature against the fetched issuers, and reject on
the first list containing the target serial. The `Nat` counts network
fetches performed. -/
def crlLoop (d : Downloader) (issuers : List Certificate) (ek : Certificate) :
    List Url → CrlLoopResult × Nat
  | [] => (.passed, 0)
  | u :: rest =>
    match downloadCRL d u with
    | (.error e, n) => (.failed (.crlDownloadFailed e), n)
    | (.ok none, n) => (.nilVerifyPanic, n)
    | (.ok (some c), n) =>
      match Verify c issuers with
      | .error e => (.failed (.crlVerifyFailed e), n)
      | .ok _ =>
        if IsRevoked c ek then (.failed .certificateRevoked, n)
        else
          match crlLoop d issuers ek rest with
          | (r, m) => (r, n + m)

/-- Outcome of `Check`, with the nil-interface panic made explicit. -/
inductive CheckOutcome where
  | ok
  | err (e : CheckError)
  | nilVerifyPanic
deriving DecidableEq

/-- The `if !cfg.SkipRevocationCheck { ... }` block of `Check`: when the
(possibly downgraded) skip flag is set the block does nothing; otherwise
the CRL distribution points are prepared and the revocation loop runs. -/
def revocationStep (d : Downloader) (issuers : List Certificate) (ek : Certificate)
    (skip : Bool) : CrlLoopResult × Nat :=
  if skip then (.passed, 0)
  else
    match prepareUrls ek.crlDistributionPoints with
    | .error _ => (.failed .prepareCrlUrlsFailed, 0)
    | .ok urls => crlLoop d issuers ek urls

/-- `(c *ekchecker) Check(cfg)`: config validation, structural pre-checks,
issuer fetching, the revocation step (unless skipped), then delegation to
the trusted bundle. Returns the outcome together with the number of
issuer-certificate fetches and the number of revocation-list fetches
performed. The `filterIntermediates` / `tb.Contains` pass only emits debug
logs and is not modelled. -/
def Check (c : EKChecker) (cfg : CheckConfig) : CheckOutcome × Nat × Nat :=
  match cfg.ek with
  | none => (.err .invalidCheckConfig, 0, 0)
  | some ek =>
    match check c.downloader ek cfg.skipRevocationCheck with
    | .error e => (.err e, 0, 0)
    | .ok skip =>
      match getIssuerCertificates c.downloader ek with
      | (.error e, ni) => (.err e, ni, 0)
      | (.ok issuers, ni) =>
        match revocationStep c.downloader issuers ek skip with
        | (.failed e, nc) => (.err e, ni, nc)
        | (.nilVerifyPanic, nc) => (.nilVerifyPanic, ni, nc)
        | (.passed, nc) =>
          if c.tbVerify ek then (.ok, ni, nc)
          else (.err .untrustedCertificate, ni, nc)

/-! ## `internal/tpm/ek.go` -/

inductive TPMAlg where
  | ecc
  | rsa
deriving DecidableEq

/-- An EK certificate template discovered in the TPM NV indices
(`attest.EKCertTemplate`); `alg` is its `Type()`. -/
structure EKCertTemplate where
  alg : TPMAlg
  idx : Nat
deriving DecidableEq

/-- An endorsement key result (`endorsement.EK`), abstracted by the id of
its certificate. -/
structure EK where
  certId : Nat
deriving DecidableEq

inductive AttestError where
  | ekCertNotFound
  | other (code : Nat)
deriving DecidableEq

/-- The TPM as seen by `search`: the NV-index templates
(`SearchAvailableCertificates`), the persisted handles (`PersistedEKs`),
and the oracle for `tpm.EK(GetEKCertConfig{Template: t})`. -/
structure TPMState where
  availableCerts : List EKCertTemplate
  persistedEKs : List EKCertTemplate
  ekResult : EKCertTemplate → Except AttestError EK

/-- `getEK(tpm, alg, availableCerts)`: if some available template has the
requested algorithm, materialize the EK from the first such template;
otherwise `attest.ErrEKCertNotFound`. -/
def getEK (tpm : TPMState) (alg : TPMAlg) : Except AttestError EK :=
  match tpm.availableCerts.find? (fun t => t.alg == alg) with
  | some t => tpm.ekResult t
  | none => .error .ekCertNotFound

inductive SearchError where
  | noCertsAvailable
  | failedAnyEK (e : AttestError)
  | failedECC (e : Option AttestError)
deriving DecidableEq

/-- Outcome of `search`. `nilCertPanic` models the nil dereference of
`ek.Certificate.Issuer` reached when the persisted-handle branch leaves a
zero EK behind a non-nil error that the source never inspects. -/
inductive SearchOutcome where
  | ok (ek : EK)
  | err (e : SearchError)
  | nilCertPanic
deriving DecidableEq

/-- `search(logger, tpm)`. The `Bool` records whether the RSA branch
(`getEK` with `tpm2.TPMAlgRSA`) was entered. The source's control flow is
kept exactly: when the ECC attempt fails with `attest.ErrEKCertNotFound`
and the RSA attempt then succeeds, execution falls out of the inner `if`
to the unconditional `return endorsement.EK{}, fmt.Errorf("failed to get
EK ECC cert: %w", errGet)` with `errGet == nil` — modelled as
`.failedECC none`. -/
def search (tpm : TPMState) : SearchOutcome × Bool :=
  if tpm.availableCerts.length = 0 then (.err .noCertsAvailable, false)
  else
    match tpm.persistedEKs with
    | t :: _ =>
      match tpm.ekResult t with
      | .ok ek => (.ok ek, false)
      | .error _ => (.nilCertPanic, false)
    | [] =>
      match getEK tpm .ecc with
      | .ok ek => (.ok ek, false)
      | .error eccErr =>
        if eccErr = .ekCertNotFound then
          match getEK tpm .rsa with
          | .error rsaErr => (.err (.failedAnyEK rsaErr), true)
          | .ok _ => (.err (.failedECC none), true)
        else (.err (.failedECC (some eccErr)), false)

/-- `info.Manufacturer`, abstracted by an id. -/
structure Manufacturer where
  id : Nat
deriving DecidableEq

/-- `EKResponse`. -/
structure EKResponse where
  certificate : EK
  manufacturer : Manufacturer
deriving DecidableEq

inductive GetEKError where
  | openFailed
  | infoFailed
  | searchFailed (e : SearchError)
deriving DecidableEq

inductive GetEKOutcome where
  | ok (r : EKResponse)
  | err (e : GetEKError)
  | panicked
deriving DecidableEq

/-- The TPM device as seen by `GetEKCertificate`: whether `attest.OpenTPM`
succeeds, whether `tpm.Close()` fails, the `tpm.Info()` result, and the
state driving `search`. -/
structure TPMDevice where
  openOk : Bool
  closeFails : Bool
  infoResult : Except Unit Manufacturer
  state : TPMState

/-- `GetEKCertificate(cfg)`. The `Bool` records whether the deferred
`tpm.Close()` ran (it runs on every path after a successful open). The
function's Go result parameters are unnamed, so the deferred closure's
assignment `err = fmt.Errorf("failed to close TPM: %w (original error:
%v)", closeErr, err)` writes to a local variable after the return values
have already been captured: the value returned to the caller does not
depend on `closeFails`, which is why `closeFails` is never read below. -/
def GetEKCertificate (dev : TPMDevice) : GetEKOutcome × Bool :=
  if dev.openOk = false then (.err .openFailed, false)
  else
    let result :=
      match dev.infoResult with
      | .error _ => GetEKOutcome.err .infoFailed
      | .ok m =>
        match search dev.state with
        | (.ok ek, _) => .ok ⟨ek, m⟩
        | (.err e, _) => .err (.searchFailed e)
        | (.nilCertPanic, _) => .panicked
    (result, true)

/-! ## Concrete fixtures used by witnesses and counterexamples -/

/-- A downloader whose network oracles always fail; its answers are
irrelevant for the runs below, which stop before or at the first fetch. -/
def failDl : Downloader := ⟨true, 10, fun _ => .error (.fetchFailed 0), fun _ => .error (.fetchFailed 0)⟩

/-- A CA-flagged certificate with no URLs. -/
def caCert : Certificate := ⟨0, 1, true, [], [], []⟩

/-- Ten distinct http URLs. -/
def tenUrls : List Url := (List.range 10).map (fun i => ⟨"http", toString i, true⟩)

/-- An issuer certificate with id 1. -/
def issuerCert1 : Certificate := ⟨1, 100, true, [], [], []⟩

/-- A revocation list with no revoked serials, accepted as signed by the
certificate with id 1. -/
def emptyCrl : RevocationList := ⟨0, 0, [], [1]⟩

/-- A non-CA EK certificate carrying ten issuer URLs, ten CRL
distribution points and the EK OID. -/
def tenTenEK : Certificate := ⟨0, 5, false, tenUrls, tenUrls, [EKCertificateOID]⟩

/-- A checker at the default fetch ceiling (10) whose oracles always
succeed: every issuer fetch yields `issuerCert1` and every CRL fetch
yields `emptyCrl`, and the trusted bundle accepts everything. -/
def happyChecker : EKChecker :=
  ⟨⟨true, 10, fun _ => .ok emptyCrl, fun _ => .ok issuerCert1⟩, fun _ => true⟩

/-- A checker whose downloader is disabled. -/
def disabledChecker : EKChecker :=
  ⟨⟨false, 10, fun _ => .error (.fetchFailed 0), fun _ => .error (.fetchFailed 0)⟩, fun _ => true⟩

/-- A non-CA EK certificate whose single issuer URL has an unsupported
scheme (`ldap`) and which carries one http CRL distribution point and the
EK OID. -/
def ldapIssuerEK : Certificate :=
  ⟨0, 5, false, [⟨"ldap", "a", true⟩], [⟨"http", "b", true⟩], [EKCertificateOID]⟩

/-- Like `ldapIssuerEK` but with an http issuer URL. -/
def httpIssuerEK : Certificate :=
  ⟨0, 5, false, [⟨"http", "a", true⟩], [⟨"http", "b", true⟩], [EKCertificateOID]⟩

/-! ## Theorems -/

/-- C6: for every URL, a disabled downloader makes `downloadCRL` return
no list and no error with zero network fetches, while `downloadCRLSigner`
returns the hard `ErrDownloaderDisabled` error with zero fetches; the two
disabled-path behaviours are as stated, not swapped. -/
theorem disabled_downloader_behaviours (d : Downloader) (u : Url)
    (h : d.enabled = false) :
    downloadCRL d u = (.ok none, 0) ∧
    downloadCRLSigner d u = (.error .downloaderDisabled, 0) := by
  constructor <;> simp [downloadCRL, downloadCRLSigner, h]

/-- Witness for C6 at a concrete disabled downloader and URL. -/
theorem disabled_downloader_behaviours_witness :
    downloadCRL ⟨false, 10, fun _ => .ok emptyCrl, fun _ => .ok issuerCert1⟩ ⟨"http", "w", true⟩
      = (.ok none, 0) ∧
    downloadCRLSigner ⟨false, 10, fun _ => .ok emptyCrl, fun _ => .ok issuerCert1⟩ ⟨"http", "w", true⟩
      = (.error .downloaderDisabled, 0) :=
  disabled_downloader_behaviours _ _ rfl

/-- C7: for a revocation list whose window `[thisUpdate, nextUpdate]` is a
genuine interval, the validity check rejects any `now` after `nextUpdate`
as expired and any `now` before `thisUpdate` as not yet valid, accepts any
`now` inside the closed interval, and its verdict is independent of the
signature data carried by the list. -/
theorem isValid_window (c : RevocationList) (now : Int)
    (h : c.thisUpdate ≤ c.nextUpdate) :
    (c.nextUpdate < now → IsValid c now = .error .crlIsExpired) ∧
    (now < c.thisUpdate → IsValid c now = .error .crlNotYetValid) ∧
    (c.thisUpdate ≤ now → now ≤ c.nextUpdate → IsValid c now = .ok ()) ∧
    (∀ sb : List Nat,
      IsValid ⟨c.thisUpdate, c.nextUpdate, c.revokedSerials, sb⟩ now = IsValid c now) := by
  refine ⟨fun h1 => ?_, fun h2 => ?_, fun h3 h4 => ?_, fun sb => rfl⟩
  · simp [IsValid, h1]
  · have hne : ¬ c.nextUpdate < now := by omega
    simp [IsValid, hne, h2]
  · have hne : ¬ c.nextUpdate < now := by omega
    have hnv : ¬ now < c.thisUpdate := by omega
    simp [IsValid, hne, hnv]

/-- Witness for C7 at a concrete list with window `[0, 10]`, evaluated at
11 (expired), -1 (not yet valid) and 5 (valid). -/
theorem isValid_window_witness :
    IsValid ⟨0, 10, [], []⟩ 11 = .error .crlIsExpired ∧
    IsValid ⟨0, 10, [], []⟩ (-1) = .error .crlNotYetValid ∧
    IsValid ⟨0, 10, [], []⟩ 5 = .ok () :=
  ⟨(isValid_window ⟨0, 10, [], []⟩ 11 (by decide)).1 (by decide),
   (isValid_window ⟨0, 10, [], []⟩ (-1) (by decide)).2.1 (by decide),
   (isValid_window ⟨0, 10, [], []⟩ 5 (by decide)).2.2.1 (by decide) (by decide)⟩

/-- C8: `IsRevoked` returns true exactly when the certificate's serial
number occurs among the list's revoked serials; in particular it is false
for every certificate when the list is empty. -/
theorem isRevoked_iff_serial_listed (c : RevocationList) (cert : Certificate) :
    (IsRevoked c cert = true ↔ cert.serialNumber ∈ c.revokedSerials) ∧
    (c.revokedSerials = [] → IsRevoked c cert = false) := by
  constructor
  · simp [IsRevoked, List.any_eq_true]
  · intro h
    simp [IsRevoked, h]

/-- Witness for C8: the empty list revokes nothing, and a singleton list
revokes exactly the listed serial. -/
theorem isRevoked_iff_serial_listed_witness :
    IsRevoked ⟨0, 0, [], []⟩ caCert = false ∧
    IsRevoked ⟨0, 0, [1], []⟩ caCert = true :=
  ⟨(isRevoked_iff_serial_listed ⟨0, 0, [], []⟩ caCert).2 rfl,
   (isRevoked_iff_serial_listed ⟨0, 0, [1], []⟩ caCert).1.mpr (by decide)⟩

/-- C2: for every configuration whose identity certificate has the CA
flag set, `Check` returns the `ErrEKCannotBeCA` rejection with zero
issuer fetches and zero CRL fetches: the downloader is never invoked. -/
theorem check_rejects_ca_before_any_fetch (c : EKChecker) (cfg : CheckConfig)
    (cert : Certificate) (hek : cfg.ek = some cert) (hca : cert.isCA = true) :
    Check c cfg = (.err .ekCannotBeCA, 0, 0) := by
  simp [Check, hek, check, hca]

/-- Witness for C2 at a concrete CA certificate. -/
theorem check_rejects_ca_before_any_fetch_witness :
    Check ⟨failDl, fun _ => true⟩ ⟨some caCert, false⟩ = (.err .ekCannotBeCA, 0, 0) :=
  check_rejects_ca_before_any_fetch ⟨failDl, fun _ => true⟩ ⟨some caCert, false⟩ caCert rfl rfl

/-- C4 (defect evaluation): with no persisted handles, only an RSA
template available (so the ECC attempt fails precisely with
`ErrEKCertNotFound`) and RSA generation succeeding, `search` nevertheless
returns the error `failed to get EK ECC cert: %w` wrapping a nil error
(`failedECC none`) instead of the successfully obtained RSA EK. -/
theorem search_rsa_fallback_returns_error :
    search ⟨[⟨.rsa, 0⟩], [], fun _ => .ok ⟨42⟩⟩ = (.err (.failedECC none), true) := rfl

/-- C9 (defect evaluation): on a device where open, info and search all
succeed but `tpm.Close()` fails, `GetEKCertificate` still returns the
successful response with a nil error — the close runs (second component
`true`) but its failure is assigned to a local variable after the unnamed
results were captured, so it is never reported to the caller; flipping
`closeFails` off changes nothing in the returned value. -/
theorem getEKCertificate_close_failure_unreported :
    GetEKCertificate ⟨true, true, .ok ⟨1⟩, ⟨[⟨.ecc, 0⟩], [⟨.ecc, 0⟩], fun _ => .ok ⟨42⟩⟩⟩
      = (.ok ⟨⟨42⟩, ⟨1⟩⟩, true) ∧
    GetEKCertificate ⟨true, false, .ok ⟨1⟩, ⟨[⟨.ecc, 0⟩], [⟨.ecc, 0⟩], fun _ => .ok ⟨42⟩⟩⟩
      = (.ok ⟨⟨42⟩, ⟨1⟩⟩, true) :=
  ⟨rfl, rfl⟩

/-- C3: the structural pre-checks are evaluated in the fixed source
order — CA flag, missing AIA, issuer count over the ceiling, CRL count
over the ceiling (only with revocation enabled), zero distribution points
downgrading to skip (never rejecting), missing EK OID — and a certificate
violating several of them receives the error of the earliest one. -/
theorem check_fixed_order (d : Downloader) (ek : Certificate) (skip : Bool) :
    (ek.isCA = true → check d ek skip = .error .ekCannotBeCA) ∧
    (ek.isCA = false → ek.issuingCertificateURL.length = 0 →
      check d ek skip = .error .missingAIAExtension) ∧
    (ek.isCA = false → ek.issuingCertificateURL.length ≠ 0 →
      d.maxDownloads < ek.issuingCertificateURL.length →
      check d ek skip = .error .tooManyIssuers) ∧
    (ek.isCA = false → ek.issuingCertificateURL.length ≠ 0 →
      ek.issuingCertificateURL.length ≤ d.maxDownloads →
      skip = false → d.maxDownloads < ek.crlDistributionPoints.length →
      check d ek skip = .error .tooManyCRLs) ∧
    (ek.isCA = false → ek.issuingCertificateURL.length ≠ 0 →
      ek.issuingCertificateURL.length ≤ d.maxDownloads →
      ek.crlDistributionPoints.length = 0 →
      ek.unknownExtKeyUsage.any (fun oid => oid == EKCertificateOID) = true →
      check d ek skip = .ok true) ∧
    (ek.isCA = false → ek.issuingCertificateURL.length ≠ 0 →
      ek.issuingCertificateURL.length ≤ d.maxDownloads →
      (skip = false → ek.crlDistributionPoints.length ≤ d.maxDownloads) →
      ek.unknownExtKeyUsage.any (fun oid => oid == EKCertificateOID) = false →
      check d ek skip = .error .missingEKOID) := by
  refine ⟨fun h1 => ?_, fun h1 h2 => ?_, fun h1 h2 h3 => ?_,
    fun h1 h2 h3 h4 h5 => ?_, fun h1 h2 h3 h4 h5 => ?_, fun h1 h2 h3 h4 h5 => ?_⟩
  · simp [check, h1]
  · simp [check, h1, h2]
  · simp [check, h1, h2, h3]
  · have hn3 : ¬ d.maxDownloads < ek.issuingCertificateURL.length := by omega
    simp [check, h1, h2, hn3, h4, h5]
  · have hn3 : ¬ d.maxDownloads < ek.issuingCertificateURL.length := by omega
    have hn4 : ¬ (skip = false ∧ d.maxDownloads < ek.crlDistributionPoints.length) := by
      intro hand
      exact absurd hand.2 (by omega)
    simp [check, h1, h2, hn3, hn4, h4, h5]
  · have hn3 : ¬ d.maxDownloads < ek.issuingCertificateURL.length := by omega
    have hn4 : ¬ (skip = false ∧ d.maxDownloads < ek.crlDistributionPoints.length) := by
      intro hand
      exact absurd (h4 hand.1) (by omega)
    simp [check, h1, h2, hn3, hn4, h5]

/-- Witness for C3 at concrete inputs: a CA certificate hits the first
check, and a certificate with no AIA URL but with the CA flag also set
still receives the CA error (earliest check wins). -/
theorem check_fixed_order_witness :
    check failDl caCert false = .error .ekCannotBeCA ∧
    check failDl ⟨0, 1, false, [], [], []⟩ false = .error .missingAIAExtension :=
  ⟨(check_fixed_order failDl caCert false).1 rfl,
   (check_fixed_order failDl ⟨0, 1, false, [], [], []⟩ false).2.1 rfl rfl⟩

/-- C5: the RSA branch of `search` is entered only when the
elliptic-curve attempt failed precisely with `ErrEKCertNotFound`; any
other elliptic-curve failure is returned (wrapped as the ECC failure)
without the RSA path ever being called. -/
theorem rsa_only_after_ecc_not_found (tpm : TPMState) :
    ((search tpm).2 = true → getEK tpm .ecc = .error .ekCertNotFound) ∧
    (∀ e : AttestError, tpm.availableCerts.length ≠ 0 → tpm.persistedEKs = [] →
      getEK tpm .ecc = .error e → e ≠ .ekCertNotFound →
      search tpm = (.err (.failedECC (some e)), false)) := by
  constructor
  · intro h
    by_cases h0 : tpm.availableCerts.length = 0
    · simp [search, h0] at h
    · rcases hp : tpm.persistedEKs with _ | ⟨t, ts⟩
      · rcases hecc : getEK tpm .ecc with e | ek
        · by_cases hnf : e = AttestError.ekCertNotFound
          · rw [hnf]
          · simp [search, h0, hp, hecc, hnf] at h
        · simp [search, h0, hp, hecc] at h
      · rcases hr : tpm.ekResult t with e | ek <;> simp [search, h0, hp, hr] at h
  · intro e h0 hp hecc hnf
    simp [search, h0, hp, hecc, hnf]

/-- Witness for C5: a TPM with an ECC template whose generation fails
with an error other than `ErrEKCertNotFound` yields the wrapped ECC
failure and the RSA path is not entered. -/
theorem rsa_only_after_ecc_not_found_witness :
    search ⟨[⟨.ecc, 0⟩], [], fun _ => .error (.other 7)⟩
      = (.err (.failedECC (some (.other 7))), false) :=
  (rsa_only_after_ecc_not_found ⟨[⟨.ecc, 0⟩], [], fun _ => .error (.other 7)⟩).2
    (.other 7) (by decide) rfl rfl (by decide)

/-- C1 (counterexample): at the default ceiling of 10, a run whose
certificate has ten issuer URLs and ten CRL distribution points passes
every structural pre-check and performs 10 + 10 = 20 network
fetches — more than the configured maximum of 10. -/
theorem total_fetches_exceed_ceiling_cx :
    happyChecker.downloader.maxDownloads = 10 ∧
    Check happyChecker ⟨some tenTenEK, false⟩ = (.ok, 10, 10) :=
  ⟨rfl, by decide⟩

theorem downloadCRLSigner_fetches_le_one (d : Downloader) (u : Url) :
    (downloadCRLSigner d u).2 ≤ 1 := by
  unfold downloadCRLSigner
  split
  · simp
  · split <;> simp

theorem downloadCRL_fetches_le_one (d : Downloader) (u : Url) :
    (downloadCRL d u).2 ≤ 1 := by
  unfold downloadCRL
  split
  · simp
  · split <;> simp

theorem fetchIssuers_fetches_le (d : Downloader) (l : List Url) :
    (fetchIssuers d l).2 ≤ l.length := by
  induction l with
  | nil => simp [fetchIssuers]
  | cons u rest ih =>
    have h1 := downloadCRLSigner_fetches_le_one d u
    rcases hd : downloadCRLSigner d u with ⟨res, n⟩
    rw [hd] at h1
    have h1' : n ≤ 1 := h1
    rcases hr : fetchIssuers d rest with ⟨res2, m⟩
    rw [hr] at ih
    have ih' : m ≤ rest.length := ih
    cases res with
    | error e =>
      simp only [fetchIssuers, hd, List.length_cons]
      omega
    | ok cert =>
      cases res2 with
      | error e2 =>
        simp only [fetchIssuers, hd, hr, List.length_cons]
        omega
      | ok certs =>
        simp only [fetchIssuers, hd, hr, List.length_cons]
        omega

theorem crlLoop_fetches_le (d : Downloader) (issuers : List Certificate)
    (ek : Certificate) (l : List Url) :
    (crlLoop d issuers ek l).2 ≤ l.length := by
  induction l with
  | nil => simp [crlLoop]
  | cons u rest ih =>
    have h1 := downloadCRL_fetches_le_one d u
    rcases hd : downloadCRL d u with ⟨res, n⟩
    rw [hd] at h1
    have h1' : n ≤ 1 := h1
    rcases hr : crlLoop d issuers ek rest with ⟨res2, m⟩
    rw [hr] at ih
    have ih' : m ≤ rest.length := ih
    cases res with
    | error e =>
      simp only [crlLoop, hd, List.length_cons]
      omega
    | ok oc =>
      cases oc with
      | none =>
        simp only [crlLoop, hd, List.length_cons]
        omega
      | some crl0 =>
        rcases hv : Verify crl0 issuers with e | uu
        · simp only [crlLoop, hd, hv, List.length_cons]
          omega
        · by_cases hrv : IsRevoked crl0 ek = true
          · simp only [crlLoop, hd, hv, List.length_cons]
            rw [if_pos hrv]
            show n ≤ rest.length + 1
            omega
          · simp only [crlLoop, hd, hv, List.length_cons]
            rw [if_neg hrv, hr]
            show n + m ≤ rest.length + 1
            omega

theorem prepareUrls_length_le (l l' : List Url) (h : prepareUrls l = .ok l') :
    l'.length ≤ l.length := by
  induction l generalizing l' with
  | nil =>
    unfold prepareUrls at h
    injection h with h
    subst h
    simp
  | cons u rest ih =>
    unfold prepareUrls at h
    by_cases hp : u.parseOk = false
    · simp [hp] at h
    · rw [if_neg hp] at h
      by_cases hs : (["http", "https"].contains u.scheme) = true
      · rw [if_pos hs] at h
        rcases hr : prepareUrls rest with he | lr
        · rw [hr] at h
          cases h
        · rw [hr] at h
          injection h with h
          subst h
          have := ih lr hr
          simp only [List.length_cons]
          omega
      · rw [if_neg hs] at h
        have := ih l' h
        simp only [List.length_cons]
        omega

theorem getIssuerCertificates_fetches_le (d : Downloader) (cert : Certificate) :
    (getIssuerCertificates d cert).2 ≤ cert.issuingCertificateURL.length := by
  unfold getIssuerCertificates
  rcases hpu : prepareUrls cert.issuingCertificateURL with he | urls
  · simp [hpu]
  · simp only [hpu]
    exact le_trans (fetchIssuers_fetches_le d urls) (prepareUrls_length_le _ _ hpu)

theorem revocationStep_fetches_le (d : Downloader) (issuers : List Certificate)
    (ek : Certificate) (skip : Bool) :
    (revocationStep d issuers ek skip).2 ≤ ek.crlDistributionPoints.length := by
  unfold revocationStep
  split
  · simp
  · rcases hpu : prepareUrls ek.crlDistributionPoints with he | urls
    · simp [hpu]
    · simp only [hpu]
      exact le_trans (crlLoop_fetches_le d issuers ek urls) (prepareUrls_length_le _ _ hpu)

theorem check_ok_issuer_le (d : Downloader) (ek : Certificate) (skip skip' : Bool)
    (h : check d ek skip = .ok skip') :
    ek.issuingCertificateURL.length ≤ d.maxDownloads := by
  unfold check at h
  by_cases h1 : ek.isCA = true
  · simp [h1] at h
  · rw [if_neg h1] at h
    by_cases h2 : ek.issuingCertificateURL.length = 0
    · simp [h2] at h
    · rw [if_neg h2] at h
      by_cases h3 : d.maxDownloads < ek.issuingCertificateURL.length
      · simp [h3] at h
      · omega

theorem check_ok_crl_le (d : Downloader) (ek : Certificate) (skip : Bool)
    (h : check d ek skip = .ok false) :
    ek.crlDistributionPoints.length ≤ d.maxDownloads := by
  unfold check at h
  by_cases h1 : ek.isCA = true
  · simp [h1] at h
  · rw [if_neg h1] at h
    by_cases h2 : ek.issuingCertificateURL.length = 0
    · simp [h2] at h
    · rw [if_neg h2] at h
      by_cases h3 : d.maxDownloads < ek.issuingCertificateURL.length
      · simp [h3] at h
      · rw [if_neg h3] at h
        by_cases h4 : skip = false ∧ d.maxDownloads < ek.crlDistributionPoints.length
        · simp [h4] at h
        · rw [if_neg h4] at h
          by_cases h5 : ek.crlDistributionPoints.length = 0
          · omega
          · simp only [if_neg h5] at h
            by_cases h6 : ek.unknownExtKeyUsage.any (fun oid => oid == EKCertificateOID) = true
            · simp only [h6, if_true] at h
              injection h with h
              rw [h] at h4
              exact le_of_not_lt (fun hlt => h4 ⟨rfl, hlt⟩)
            · simp [h6] at h

/-- C1 (amended): per verification run, the number of issuer-certificate
fetches and the number of revocation-list fetches are each bounded by the
configured ceiling — so the total is bounded by twice the ceiling, not by
the ceiling itself — and a failing structural pre-check stops the run
with zero fetches of either kind. -/
theorem fetch_counts_bounded_per_category (c : EKChecker) (cfg : CheckConfig) :
    (Check c cfg).2.1 ≤ c.downloader.maxDownloads ∧
    (Check c cfg).2.2 ≤ c.downloader.maxDownloads ∧
    (Check c cfg).2.1 + (Check c cfg).2.2 ≤ 2 * c.downloader.maxDownloads ∧
    (∀ cert e, cfg.ek = some cert →
      check c.downloader cert cfg.skipRevocationCheck = .error e →
      Check c cfg = (.err e, 0, 0)) := by
  have hmain : (Check c cfg).2.1 ≤ c.downloader.maxDownloads ∧
      (Check c cfg).2.2 ≤ c.downloader.maxDownloads := by
    rcases hek : cfg.ek with _ | ek
    · simp [Check, hek]
    · rcases hc : check c.downloader ek cfg.skipRevocationCheck with e | skip
      · simp [Check, hek, hc]
      · have hi : ek.issuingCertificateURL.length ≤ c.downloader.maxDownloads :=
          check_ok_issuer_le _ _ _ _ hc
        have hgi := getIssuerCertificates_fetches_le c.downloader ek
        rcases hg : getIssuerCertificates c.downloader ek with ⟨res, ni⟩
        rw [hg] at hgi
        have hgi' : ni ≤ ek.issuingCertificateURL.length := hgi
        cases res with
        | error e =>
          have hCheck : Check c cfg = (.err e, ni, 0) := by
            simp only [Check, hek, hc, hg]
          rw [hCheck]
          exact ⟨le_trans hgi' hi, Nat.zero_le _⟩
        | ok issuers =>
          have hrs := revocationStep_fetches_le c.downloader issuers ek skip
          rcases hr : revocationStep c.downloader issuers ek skip with ⟨sres, nc⟩
          rw [hr] at hrs
          have hrs' : nc ≤ ek.crlDistributionPoints.length := hrs
          have hnc : nc ≤ c.downloader.maxDownloads := by
            cases skip with
            | true =>
              have h0 : (revocationStep c.downloader issuers ek true).2 = 0 := rfl
              rw [hr] at h0
              have h0' : nc = 0 := h0
              omega
            | false =>
              have hcl := check_ok_crl_le _ _ _ hc
              omega
          cases sres with
          | passed =>
            by_cases htb : c.tbVerify ek = true
            · have hCheck : Check c cfg = (.ok, ni, nc) := by
                simp only [Check, hek, hc, hg, hr]
                rw [if_pos htb]
              rw [hCheck]
              exact ⟨le_trans hgi' hi, hnc⟩
            · have hCheck : Check c cfg = (.err .untrustedCertificate, ni, nc) := by
                simp only [Check, hek, hc, hg, hr]
                rw [if_neg htb]
              rw [hCheck]
              exact ⟨le_trans hgi' hi, hnc⟩
          | failed e =>
            have hCheck : Check c cfg = (.err e, ni, nc) := by
              simp only [Check, hek, hc, hg, hr]
            rw [hCheck]
            exact ⟨le_trans hgi' hi, hnc⟩
          | nilVerifyPanic =>
            have hCheck : Check c cfg = (.nilVerifyPanic, ni, nc) := by
              simp only [Check, hek, hc, hg, hr]
            rw [hCheck]
            exact ⟨le_trans hgi' hi, hnc⟩
  refine ⟨hmain.1, hmain.2, by omega, ?_⟩
  intro cert e hek hc
  simp [Check, hek, hc]

/-- Witness for C1 (amended), applying the bound theorem's fail-fast
conjunct at a CA certificate. -/
theorem fetch_counts_bounded_per_category_witness :
    Check ⟨failDl, fun _ => false⟩ ⟨some caCert, true⟩ = (.err .ekCannotBeCA, 0, 0) :=
  (fetch_counts_bounded_per_category ⟨failDl, fun _ => false⟩ ⟨some caCert, true⟩).2.2.2
    caCert .ekCannotBeCA rfl rfl

/-- C10 (counterexample): with the downloader disabled, revocation
enabled and one http CRL distribution point, a certificate whose only
issuer URL has an unsupported scheme passes every structural pre-check,
reaches the revocation loop with an empty issuer set, receives the nil
list from the disabled `downloadCRL`, and `Check` then invokes `Verify`
on that nil revocation list — the nil-interface panic, not an error or
nil result. -/
theorem nil_crl_verify_panic_cx :
    Check disabledChecker ⟨some ldapIssuerEK, false⟩ = (.nilVerifyPanic, 0, 0) := by
  decide

theorem prepareUrls_supported_mem_ne_nil (l l' : List Url) (u : Url)
    (h : prepareUrls l = .ok l') (hmem : u ∈ l) (hp : u.parseOk = true)
    (hs : u.scheme = "http" ∨ u.scheme = "https") : l' ≠ [] := by
  induction l generalizing l' with
  | nil => cases hmem
  | cons v rest ih =>
    unfold prepareUrls at h
    by_cases hv : v.parseOk = false
    · simp [hv] at h
    · rw [if_neg hv] at h
      by_cases hvs : (["http", "https"].contains v.scheme) = true
      · rw [if_pos hvs] at h
        rcases hr : prepareUrls rest with he | lr
        · rw [hr] at h
          cases h
        · rw [hr] at h
          injection h with h
          subst h
          simp
      · rw [if_neg hvs] at h
        rcases List.mem_cons.mp hmem with heq | hmem'
        · subst heq
          exact absurd (by rcases hs with h1 | h1 <;> rw [h1] <;> decide) hvs
        · exact ih l' h hmem'

theorem fetchIssuers_disabled_cons (d : Downloader) (hd : d.enabled = false)
    (u : Url) (rest : List Url) :
    fetchIssuers d (u :: rest) = (.error (.issuerDownloadFailed .downloaderDisabled), 0) := by
  simp [fetchIssuers, downloadCRLSigner, hd]

/-- C10 (amended): with revocation enabled, at least one http(s) CRL
distribution point and a disabled downloader, `Check` returns a defined
result provided at least one issuer-retrieval URL parses and has scheme
http or https — the disabled issuer fetch then fails the run before the
revocation step; the nil list is only ever reached (and `Verify` invoked
on it, a panic) when every issuer URL is dropped for its scheme. -/
theorem check_total_disabled_with_supported_issuer_url
    (c : EKChecker) (cfg : CheckConfig) (cert : Certificate) (u : Url)
    (hdis : c.downloader.enabled = false) (hek : cfg.ek = some cert)
    (hmem : u ∈ cert.issuingCertificateURL) (hp : u.parseOk = true)
    (hs : u.scheme = "http" ∨ u.scheme = "https") :
    (Check c cfg).1 ≠ CheckOutcome.nilVerifyPanic := by
  have hgi : ∃ e2, getIssuerCertificates c.downloader cert = (.error e2, 0) := by
    rcases hpu : prepareUrls cert.issuingCertificateURL with he | urls
    · exact ⟨.prepareIssuerUrlsFailed, by simp [getIssuerCertificates, hpu]⟩
    · have hne := prepareUrls_supported_mem_ne_nil _ urls u hpu hmem hp hs
      cases urls with
      | nil => exact absurd rfl hne
      | cons v vs =>
        refine ⟨.issuerDownloadFailed .downloaderDisabled, ?_⟩
        simp only [getIssuerCertificates, hpu]
        exact fetchIssuers_disabled_cons c.downloader hdis v vs
  rcases hgi with ⟨e2, hgi⟩
  rcases hc : check c.downloader cert cfg.skipRevocationCheck with e | skip
  · simp [Check, hek, hc]
  · simp [Check, hek, hc, hgi]

/-- Witness for C10 (amended) at a concrete disabled run whose
certificate has an http issuer URL. -/
theorem check_total_disabled_with_supported_issuer_url_witness :
    (Check disabledChecker ⟨some httpIssuerEK, false⟩).1 ≠ CheckOutcome.nilVerifyPanic :=
  check_total_disabled_with_supported_issuer_url disabledChecker
    ⟨some httpIssuerEK, false⟩ httpIssuerEK ⟨"http", "a", true⟩ rfl rfl
    (by decide) rfl (Or.inl rfl)

end TpmTrust
